import Mathlib

/-!
Shallow embedding of the PocketPair daily-puzzle server, file server/app.py.

The scheduler function select_daily_puzzle reads two JSON files through
load_json and writes the history file through save_json.  We model the
results of those effects as explicit parameters and results:

* the library load result is an Option (List PuzzleRecord):
  none models a missing rangeLibrary.json (load_json returns None),
  some [] models an empty or malformed file (json.JSONDecodeError makes
  load_json return the empty list); both are falsy in the Python test
  "if not range_library";
* the history load result is a List AssignmentEntry (a missing or
  malformed gameHistory.json loads as the empty list);
* randomness (random.choice) is modelled by an oracle rand : Nat that
  indexes into the available pool, so the selected record is always an
  element of the pool, exactly as random.choice guarantees;
* a failing save_json call (an OSError escaping open or json.dump, which
  the Python code does not catch) is modelled by the flag saveFails; when
  it is set the write raises, surfacing as an Except.error value;
* the Python recursion limit is modelled by a fuel argument; the reset
  path of select_daily_puzzle is the only recursive call and it always
  runs against an empty history, so fuel 2 is always sufficient (proved
  below in select_no_recursion_limit).

The function returns both the Python return value and the final persisted
content of the history file.
-/

deriving instance DecidableEq for Except

namespace PocketPair

/-- A record of the puzzle library (rangeLibrary.json): a JSON object with
an "id" key and further payload keys, none of which is named "error". -/
structure PuzzleRecord where
  id : Nat
  payload : Nat
deriving DecidableEq, Repr

/-- An entry of the assignment history (gameHistory.json): a JSON object
with a "date" key (the string returned by strftime, modelled as a number)
and a "puzzle_id" key. -/
structure AssignmentEntry where
  date : Nat
  puzzle_id : Nat
deriving DecidableEq, Repr

/-- Exceptions that can escape the Python functions. -/
inductive PyExn where
  | saveIOError
  | typeError
  | recursionLimit
deriving DecidableEq, Repr

/-- The possible Python return values of select_daily_puzzle:
the error tuple produced on an empty or missing library, the value None
produced when the stored id of today matches no library record, or a
puzzle record. -/
inductive PyResult where
  | errorResp (msg : String)
  | pyNone
  | puzzle (p : PuzzleRecord)
deriving DecidableEq, Repr

/-- The message inside the error tuple of select_daily_puzzle. -/
def libraryErrorMsg : String := "Range library is empty or missing."

/-- Step 3 of select_daily_puzzle: the list of ids already used. -/
def used_ids (history : List AssignmentEntry) : List Nat :=
  history.map (fun entry => entry.puzzle_id)

/-- Step 4 of select_daily_puzzle: all available (unused) puzzles. -/
def available_puzzles (range_library : List PuzzleRecord)
    (history : List AssignmentEntry) : List PuzzleRecord :=
  range_library.filter (fun p => decide (p.id ∉ used_ids history))

/-- The body of select_daily_puzzle, translated line by line, with an
explicit fuel bound standing for the Python recursion limit.  The first
component of an ok result is the Python return value, the second the
persisted history file content after the call. -/
def selectAux : Nat → Nat → Nat → Option (List PuzzleRecord) →
    List AssignmentEntry → Bool → Except PyExn (PyResult × List AssignmentEntry)
  | 0, _, _, _, _, _ => .error .recursionLimit
  | fuel + 1, today_id, rand, range_library, history, saveFails =>
    match range_library with
    | none => .ok (.errorResp libraryErrorMsg, history)
    | some lib =>
      if lib.isEmpty then
        .ok (.errorResp libraryErrorMsg, history)
      else
        match history.find? (fun entry => entry.date == today_id) with
        | some entry =>
          .ok ((match lib.find? (fun p => p.id == entry.puzzle_id) with
                | some p => PyResult.puzzle p
                | none => PyResult.pyNone), history)
        | none =>
          if hav : available_puzzles lib history = [] then
            if saveFails then .error .saveIOError
            else selectAux fuel today_id rand range_library [] saveFails
          else
            let selected_puzzle := (available_puzzles lib history).get
              ⟨rand % (available_puzzles lib history).length,
               Nat.mod_lt rand (List.length_pos.mpr hav)⟩
            let new_entry : AssignmentEntry := ⟨today_id, selected_puzzle.id⟩
            if saveFails then .error .saveIOError
            else .ok (.puzzle selected_puzzle, history ++ [new_entry])

/-- The Python function select_daily_puzzle of server/app.py, with the
load results, the random oracle and the save outcome passed explicitly.
Fuel 2 covers the single reset retry the algorithm can perform. -/
def select_daily_puzzle (today_id rand : Nat)
    (range_library : Option (List PuzzleRecord))
    (history : List AssignmentEntry) (saveFails : Bool) :
    Except PyExn (PyResult × List AssignmentEntry) :=
  selectAux 2 today_id rand range_library history saveFails

/-- The JSON body jsonify produces from a select_daily_puzzle result.
The error tuple serializes as the two element JSON array holding the
error object and the number 500. -/
inductive HttpBody where
  | puzzleJson (p : PuzzleRecord)
  | tupleJson (msg : String)
  | nullJson
deriving DecidableEq, Repr

/-- An HTTP response of the Flask endpoint: a status code and a body. -/
structure HttpResponse where
  status : Nat
  body : HttpBody
deriving DecidableEq, Repr

/-- The Python membership test "error" in puzzle_data of get_daily_puzzle:
on the error tuple it compares the string against the two tuple elements
(a dict and the number 500) and yields False; on None it raises TypeError
(None is not iterable); on a puzzle dict it tests the keys, which are
"id" and the payload keys, so it yields False. -/
def error_in_result : PyResult → Except PyExn Bool
  | .errorResp _ => .ok false
  | .pyNone => .error .typeError
  | .puzzle _ => .ok false

/-- The body jsonify builds from each possible puzzle_data value. -/
def jsonify : PyResult → HttpBody
  | .errorResp msg => .tupleJson msg
  | .pyNone => .nullJson
  | .puzzle p => .puzzleJson p

/-- The Flask endpoint get_daily_puzzle of server/app.py. -/
def get_daily_puzzle (today_id rand : Nat)
    (range_library : Option (List PuzzleRecord))
    (history : List AssignmentEntry) (saveFails : Bool) :
    Except PyExn HttpResponse := do
  let (puzzle_data, _) ← select_daily_puzzle today_id rand range_library history saveFails
  let hasError ← error_in_result puzzle_data
  if hasError then
    return ⟨500, jsonify puzzle_data⟩
  else
    return ⟨200, jsonify puzzle_data⟩

/-- One fresh call of select_daily_puzzle per day: days is the list of
(date, random oracle) pairs, threaded through the persisted history. -/
def runSelections (lib : List PuzzleRecord) :
    List (Nat × Nat) → List AssignmentEntry → List AssignmentEntry
  | [], history => history
  | (d, r) :: rest, history =>
    match select_daily_puzzle d r (some lib) history false with
    | .ok (_, h2) => runSelections lib rest h2
    | .error _ => history

/-!  General lemmas about the embedded scheduler. -/

/-- Unfolding equation of selectAux for positive fuel. -/
lemma selectAux_succ (fuel today_id rand : Nat)
    (range_library : Option (List PuzzleRecord))
    (history : List AssignmentEntry) (saveFails : Bool) :
    selectAux (fuel + 1) today_id rand range_library history saveFails =
    match range_library with
    | none => .ok (.errorResp libraryErrorMsg, history)
    | some lib =>
      if lib.isEmpty then
        .ok (.errorResp libraryErrorMsg, history)
      else
        match history.find? (fun entry => entry.date == today_id) with
        | some entry =>
          .ok ((match lib.find? (fun p => p.id == entry.puzzle_id) with
                | some p => PyResult.puzzle p
                | none => PyResult.pyNone), history)
        | none =>
          if hav : available_puzzles lib history = [] then
            if saveFails then .error .saveIOError
            else selectAux fuel today_id rand range_library [] saveFails
          else
            let selected_puzzle := (available_puzzles lib history).get
              ⟨rand % (available_puzzles lib history).length,
               Nat.mod_lt rand (List.length_pos.mpr hav)⟩
            let new_entry : AssignmentEntry := ⟨today_id, selected_puzzle.id⟩
            if saveFails then .error .saveIOError
            else .ok (.puzzle selected_puzzle, history ++ [new_entry]) := rfl

/-- When today already has a history entry, both saves are skipped and the
call returns the result of resolving the stored id in the library, leaving
the history file untouched. -/
lemma select_found (today_id rand : Nat) (lib : List PuzzleRecord)
    (history : List AssignmentEntry) (sf : Bool) (e : AssignmentEntry)
    (hlib : lib ≠ [])
    (hfind : history.find? (fun x => x.date == today_id) = some e) :
    select_daily_puzzle today_id rand (some lib) history sf =
    .ok ((match lib.find? (fun p => p.id == e.puzzle_id) with
          | some p => PyResult.puzzle p
          | none => PyResult.pyNone), history) := by
  show selectAux 2 today_id rand (some lib) history sf = _
  rw [show (2 : Nat) = 1 + 1 from rfl, selectAux_succ]
  simp only [hfind]
  rw [if_neg (by simp [List.isEmpty_iff, hlib])]

/-- When today is fresh and the pool is non-empty, the call picks a pool
element and appends the new entry for today to the history. -/
lemma selectAux_fresh (fuel today_id rand : Nat) (lib : List PuzzleRecord)
    (history : List AssignmentEntry)
    (hfind : history.find? (fun e => e.date == today_id) = none)
    (hpool : ∃ p, p ∈ lib ∧ p.id ∉ used_ids history) :
    ∃ sel, sel ∈ lib ∧ sel.id ∉ used_ids history ∧
      selectAux (fuel + 1) today_id rand (some lib) history false =
        .ok (.puzzle sel, history ++ [⟨today_id, sel.id⟩]) := by
  obtain ⟨p, hp, hpu⟩ := hpool
  have hlib : lib ≠ [] := by rintro rfl; exact List.not_mem_nil p hp
  have hav : available_puzzles lib history ≠ [] := by
    intro hnil
    have := List.filter_eq_nil_iff.mp hnil p hp
    simp [hpu] at this
  have hlen : 0 < (available_puzzles lib history).length := List.length_pos.mpr hav
  refine ⟨(available_puzzles lib history).get
      ⟨rand % (available_puzzles lib history).length, Nat.mod_lt rand hlen⟩, ?_, ?_, ?_⟩
  · exact (List.mem_filter.mp (List.get_mem _ _ _)).1
  · have h2 := (List.mem_filter.mp
      (List.get_mem (available_puzzles lib history) (rand % (available_puzzles lib history).length)
        (Nat.mod_lt rand hlen))).2
    simpa using h2
  · rw [selectAux_succ]
    simp only [hfind]
    rw [if_neg (by simp [List.isEmpty_iff, hlib])]
    rw [dif_neg hav]
    rfl

/-- select_daily_puzzle version of selectAux_fresh. -/
lemma select_fresh (today_id rand : Nat) (lib : List PuzzleRecord)
    (history : List AssignmentEntry)
    (hfind : history.find? (fun e => e.date == today_id) = none)
    (hpool : ∃ p, p ∈ lib ∧ p.id ∉ used_ids history) :
    ∃ sel, sel ∈ lib ∧ sel.id ∉ used_ids history ∧
      select_daily_puzzle today_id rand (some lib) history false =
        .ok (.puzzle sel, history ++ [⟨today_id, sel.id⟩]) :=
  selectAux_fresh 1 today_id rand lib history hfind hpool

/-- When today is fresh and the pool is exhausted, the call clears the
history, persists it and retries once: it then selects from the full
library and the final history holds exactly the new entry for today. -/
lemma select_reset (today_id rand : Nat) (lib : List PuzzleRecord)
    (history : List AssignmentEntry)
    (hlib : lib ≠ [])
    (hfind : history.find? (fun e => e.date == today_id) = none)
    (hexh : available_puzzles lib history = []) :
    ∃ sel, sel ∈ lib ∧
      select_daily_puzzle today_id rand (some lib) history false =
        .ok (.puzzle sel, [⟨today_id, sel.id⟩]) := by
  obtain ⟨q, hq⟩ := List.exists_mem_of_ne_nil lib hlib
  obtain ⟨sel, hsel, hselu, heq⟩ :=
    selectAux_fresh 0 today_id rand lib [] rfl ⟨q, hq, by simp [used_ids]⟩
  refine ⟨sel, hsel, ?_⟩
  show selectAux 2 today_id rand (some lib) history false = _
  rw [show (2 : Nat) = 1 + 1 from rfl, selectAux_succ]
  simp only [hfind]
  rw [if_neg (by simp [List.isEmpty_iff, hlib])]
  rw [dif_pos hexh]
  simpa using heq

/-- When today is fresh, a failing save aborts the call with the raised
OSError, whether the failing write is the reset write or the append
write: no value is returned. -/
lemma select_save_failure (today_id rand : Nat) (lib : List PuzzleRecord)
    (history : List AssignmentEntry)
    (hlib : lib ≠ [])
    (hfind : history.find? (fun e => e.date == today_id) = none) :
    select_daily_puzzle today_id rand (some lib) history true =
      .error .saveIOError := by
  show selectAux 2 today_id rand (some lib) history true = _
  rw [show (2 : Nat) = 1 + 1 from rfl, selectAux_succ]
  simp only [hfind]
  rw [if_neg (by simp [List.isEmpty_iff, hlib])]
  by_cases hav : available_puzzles lib history = []
  · rw [dif_pos hav]
    simp
  · rw [dif_neg hav]
    simp

/-- Exhaustive description of how one call can change the history file:
it either leaves it unchanged, or appends one entry for today (today was
fresh), or resets it to exactly one entry for today; in the latter two
cases the recorded id is the id of a library record returned as the
result. -/
lemma select_shape (today_id rand : Nat) (lo : Option (List PuzzleRecord))
    (history : List AssignmentEntry) (sf : Bool) (res : PyResult)
    (h2 : List AssignmentEntry)
    (hrun : select_daily_puzzle today_id rand lo history sf = .ok (res, h2)) :
    h2 = history ∨
    (∃ sel, sel ∈ lo.getD [] ∧ res = .puzzle sel ∧
      history.find? (fun e => e.date == today_id) = none ∧
      (h2 = history ++ [⟨today_id, sel.id⟩] ∨ h2 = [⟨today_id, sel.id⟩])) := by
  cases lo with
  | none =>
    rw [show select_daily_puzzle today_id rand none history sf =
        .ok (.errorResp libraryErrorMsg, history) from rfl] at hrun
    simp only [Except.ok.injEq, Prod.mk.injEq] at hrun
    exact Or.inl hrun.2.symm
  | some lib =>
    by_cases hlib : lib = []
    · subst hlib
      rw [show select_daily_puzzle today_id rand (some []) history sf =
          .ok (.errorResp libraryErrorMsg, history) from rfl] at hrun
      simp only [Except.ok.injEq, Prod.mk.injEq] at hrun
      exact Or.inl hrun.2.symm
    · cases hf : history.find? (fun e => e.date == today_id) with
      | some e =>
        rw [select_found today_id rand lib history sf e hlib hf] at hrun
        simp only [Except.ok.injEq, Prod.mk.injEq] at hrun
        exact Or.inl hrun.2.symm
      | none =>
        cases sf with
        | true =>
          rw [select_save_failure today_id rand lib history hlib hf] at hrun
          exact absurd hrun (by simp)
        | false =>
          by_cases hav : available_puzzles lib history = []
          · obtain ⟨sel, hsel, heq⟩ :=
              select_reset today_id rand lib history hlib hf hav
            rw [heq] at hrun
            simp only [Except.ok.injEq, Prod.mk.injEq] at hrun
            exact Or.inr ⟨sel, by simpa using hsel, hrun.1.symm, rfl,
              Or.inr hrun.2.symm⟩
          · obtain ⟨sel, hsel, _, heq⟩ :=
              select_fresh today_id rand lib history hf
                (by
                  by_contra hno
                  push_neg at hno
                  exact hav (List.filter_eq_nil_iff.mpr
                    (fun p hp => by simp [hno p hp])))
            rw [heq] at hrun
            simp only [Except.ok.injEq, Prod.mk.injEq] at hrun
            exact Or.inr ⟨sel, by simpa using hsel, hrun.1.symm, rfl,
              Or.inl hrun.2.symm⟩

/-- Sanity check of the fuel bound: the recursion-limit marker of the
embedding is unreachable, matching the bounded recursion of the code. -/
lemma select_no_recursion_limit (today_id rand : Nat)
    (lo : Option (List PuzzleRecord)) (history : List AssignmentEntry)
    (sf : Bool) :
    select_daily_puzzle today_id rand lo history sf ≠
      .error .recursionLimit := by
  intro hcontra
  rcases lo with _ | lib
  · rw [show select_daily_puzzle today_id rand none history sf =
        .ok (.errorResp libraryErrorMsg, history) from rfl] at hcontra
    exact Except.noConfusion hcontra
  · by_cases hlib : lib = []
    · subst hlib
      rw [show select_daily_puzzle today_id rand (some []) history sf =
          .ok (.errorResp libraryErrorMsg, history) from rfl] at hcontra
      exact Except.noConfusion hcontra
    · cases hf : history.find? (fun e => e.date == today_id) with
      | some e =>
        rw [select_found today_id rand lib history sf e hlib hf] at hcontra
        exact Except.noConfusion hcontra
      | none =>
        cases sf with
        | true =>
          rw [select_save_failure today_id rand lib history hlib hf] at hcontra
          simp at hcontra
        | false =>
          by_cases hav : available_puzzles lib history = []
          · obtain ⟨sel, _, heq⟩ :=
              select_reset today_id rand lib history hlib hf hav
            rw [heq] at hcontra
            exact Except.noConfusion hcontra
          · obtain ⟨sel, _, _, heq⟩ :=
              select_fresh today_id rand lib history hf
                (by
                  by_contra hno
                  push_neg at hno
                  exact hav (List.filter_eq_nil_iff.mpr
                    (fun p hp => by simp [hno p hp])))
            rw [heq] at hcontra
            exact Except.noConfusion hcontra

/-!  The claims. -/

/-- C1: Idempotence within a day.  For every non-empty library and every
history already holding an entry whose date is today and whose stored id
resolves in the library, select_daily_puzzle returns exactly that record
and leaves the history untouched (the save is never reached, so the flag
modelling a failing save is arbitrary); hence two consecutive calls on
the same date, with arbitrary random oracles, return the same record,
also across a process restart, since the call is a pure function of the
loaded state. -/
theorem C1_idempotence_within_day (today_id rand rand2 : Nat)
    (lib : List PuzzleRecord) (history : List AssignmentEntry)
    (sf sf2 : Bool) (e : AssignmentEntry) (p : PuzzleRecord)
    (hlib : lib ≠ [])
    (hfind : history.find? (fun x => x.date == today_id) = some e)
    (hp : lib.find? (fun q => q.id == e.puzzle_id) = some p) :
    select_daily_puzzle today_id rand (some lib) history sf =
      .ok (.puzzle p, history) ∧
    select_daily_puzzle today_id rand2 (some lib) history sf2 =
      .ok (.puzzle p, history) := by
  refine ⟨?_, ?_⟩ <;>
  · rw [select_found _ _ lib history _ e hlib hfind, hp]

/-- Witness for C1 at a concrete library and history. -/
theorem C1_witness :
    select_daily_puzzle 20240101 5 (some [⟨1, 10⟩, ⟨2, 20⟩])
      [⟨20240101, 2⟩] false = .ok (.puzzle ⟨2, 20⟩, [⟨20240101, 2⟩]) ∧
    select_daily_puzzle 20240101 7 (some [⟨1, 10⟩, ⟨2, 20⟩])
      [⟨20240101, 2⟩] true = .ok (.puzzle ⟨2, 20⟩, [⟨20240101, 2⟩]) :=
  C1_idempotence_within_day 20240101 5 7 [⟨1, 10⟩, ⟨2, 20⟩] [⟨20240101, 2⟩]
    false true ⟨20240101, 2⟩ ⟨2, 20⟩ (by decide) (by decide) (by decide)

/-- C3: Exhaustion reset with bounded recursion.  For a non-empty library,
a fresh date and an exhausted pool (every library id already recorded),
the call clears the history, persists it, restarts once against the full
library, terminates, and succeeds with a library record; the final
history holds exactly one entry, for today. -/
theorem C3_exhaustion_reset (today_id rand : Nat) (lib : List PuzzleRecord)
    (history : List AssignmentEntry)
    (hlib : lib ≠ [])
    (hfind : history.find? (fun e => e.date == today_id) = none)
    (hexh : ∀ p ∈ lib, p.id ∈ used_ids history) :
    ∃ sel, sel ∈ lib ∧
      select_daily_puzzle today_id rand (some lib) history false =
        .ok (.puzzle sel, [⟨today_id, sel.id⟩]) :=
  select_reset today_id rand lib history hlib hfind
    (List.filter_eq_nil_iff.mpr (fun p hp => by simp [hexh p hp]))

/-- Witness for C3: a fully used two-record library resets on the third
date. -/
theorem C3_witness :
    ∃ sel, sel ∈ [(⟨1, 0⟩ : PuzzleRecord), ⟨2, 0⟩] ∧
      select_daily_puzzle 20240103 0 (some [⟨1, 0⟩, ⟨2, 0⟩])
        [⟨20240101, 1⟩, ⟨20240102, 2⟩] false =
        .ok (.puzzle sel, [⟨20240103, sel.id⟩]) :=
  C3_exhaustion_reset 20240103 0 [⟨1, 0⟩, ⟨2, 0⟩]
    [⟨20240101, 1⟩, ⟨20240102, 2⟩] (by decide) (by decide) (by decide)

/-- C4 counterexample: with library [{id 1}] and a history entry for
today storing the unknown id 99, select_daily_puzzle returns the Python
value None (an absent result) rather than an error result, and the
history is unchanged.  This contradicts the claim that the call fails
with a LibraryUnavailable class error and does not return an absent
result. -/
theorem C4_counterexample :
    select_daily_puzzle 20240102 0 (some [⟨1, 0⟩]) [⟨20240102, 99⟩] false =
      .ok (.pyNone, [⟨20240102, 99⟩]) := by decide

/-- C4 as amended: when the history entry of today references an id that
matches no record of the current library, select_daily_puzzle silently
returns the Python value None; it does not re-select a different puzzle
and does not modify the history (no save is performed). -/
theorem C4_amended_returns_none (today_id rand : Nat)
    (lib : List PuzzleRecord) (history : List AssignmentEntry) (sf : Bool)
    (e : AssignmentEntry)
    (hlib : lib ≠ [])
    (hfind : history.find? (fun x => x.date == today_id) = some e)
    (hnone : lib.find? (fun p => p.id == e.puzzle_id) = none) :
    select_daily_puzzle today_id rand (some lib) history sf =
      .ok (.pyNone, history) := by
  rw [select_found today_id rand lib history sf e hlib hfind, hnone]

/-- Witness for the amended C4. -/
theorem C4_witness :
    select_daily_puzzle 20240107 2 (some [⟨8, 0⟩, ⟨9, 0⟩])
      [⟨20240107, 55⟩] true = .ok (.pyNone, [⟨20240107, 55⟩]) :=
  C4_amended_returns_none 20240107 2 [⟨8, 0⟩, ⟨9, 0⟩] [⟨20240107, 55⟩] true
    ⟨20240107, 55⟩ (by decide) (by decide) (by decide)

/-- C5: Empty-library failure with no history mutation.  For every
history, a missing library (load_json returns None) or an empty or
malformed library (load_json returns the empty list) makes
select_daily_puzzle return the error tuple, with the history file
untouched; no save is performed, which the arbitrary save-failure flag
certifies. -/
theorem C5_empty_library_failure (today_id rand : Nat)
    (history : List AssignmentEntry) (sf : Bool) :
    select_daily_puzzle today_id rand none history sf =
      .ok (.errorResp libraryErrorMsg, history) ∧
    select_daily_puzzle today_id rand (some []) history sf =
      .ok (.errorResp libraryErrorMsg, history) :=
  ⟨rfl, rfl⟩

/-- C6: At most one entry per date is preserved.  If the loaded history
has pairwise distinct dates, then the history persisted by any completed
select_daily_puzzle call still has pairwise distinct dates: an entry is
appended only when no entry for today exists, and the only other
modification is the reset to a single fresh entry. -/
theorem C6_at_most_one_entry_per_date (today_id rand : Nat)
    (lo : Option (List PuzzleRecord)) (history : List AssignmentEntry)
    (sf : Bool) (res : PyResult) (h2 : List AssignmentEntry)
    (hinv : (history.map (fun e => e.date)).Nodup)
    (hrun : select_daily_puzzle today_id rand lo history sf = .ok (res, h2)) :
    (h2.map (fun e => e.date)).Nodup := by
  rcases select_shape today_id rand lo history sf res h2 hrun with
    rfl | ⟨sel, _, _, hfind, hcase⟩
  · exact hinv
  · have hnot : today_id ∉ history.map (fun e => e.date) := by
      intro hmem
      obtain ⟨e, he, hdate⟩ := List.mem_map.mp hmem
      have hne := List.find?_eq_none.mp hfind e he
      simp [hdate] at hne
    rcases hcase with rfl | rfl
    · rw [List.map_append]
      exact List.Nodup.append hinv (by simp) (by simpa using hnot)
    · simp

/-- Witness for C6: a reset call starting from a one-entry history. -/
theorem C6_witness :
    (([⟨20240103, 1⟩] : List AssignmentEntry).map (fun e => e.date)).Nodup :=
  C6_at_most_one_entry_per_date 20240103 0 (some [⟨1, 0⟩]) [⟨20240101, 1⟩]
    false (.puzzle ⟨1, 0⟩) [⟨20240103, 1⟩] (by decide) (by decide)

/-- C7: Valid references at write time.  Every entry of the history
persisted by a completed select_daily_puzzle call either was already in
the loaded history or carries the id of some record of the loaded
library: the scheduler never records an id it did not select from the
current library. -/
theorem C7_valid_reference_at_write (today_id rand : Nat)
    (lib : List PuzzleRecord) (history : List AssignmentEntry) (sf : Bool)
    (res : PyResult) (h2 : List AssignmentEntry)
    (hrun : select_daily_puzzle today_id rand (some lib) history sf =
      .ok (res, h2)) :
    ∀ e ∈ h2, e ∈ history ∨ e.puzzle_id ∈ lib.map (fun p => p.id) := by
  rcases select_shape today_id rand (some lib) history sf res h2 hrun with
    rfl | ⟨sel, hsel, _, _, hcase⟩
  · exact fun e he => Or.inl he
  · have hid : sel.id ∈ lib.map (fun p => p.id) :=
      List.mem_map.mpr ⟨sel, by simpa using hsel, rfl⟩
    rcases hcase with rfl | rfl
    · intro e he
      rcases List.mem_append.mp he with he | he
      · exact Or.inl he
      · simp only [List.mem_singleton] at he
        subst he
        exact Or.inr hid
    · intro e he
      simp only [List.mem_singleton] at he
      subst he
      exact Or.inr hid

/-- Witness for C7: the freshly appended entry of a concrete run
references a library id. -/
theorem C7_witness :
    (⟨20240102, 6⟩ : AssignmentEntry) ∈
      ([⟨20240101, 5⟩] : List AssignmentEntry) ∨
    (⟨20240102, 6⟩ : AssignmentEntry).puzzle_id ∈
      ([⟨5, 0⟩, ⟨6, 1⟩] : List PuzzleRecord).map (fun p => p.id) :=
  C7_valid_reference_at_write 20240102 0 [⟨5, 0⟩, ⟨6, 1⟩] [⟨20240101, 5⟩]
    false (.puzzle ⟨6, 1⟩) [⟨20240101, 5⟩, ⟨20240102, 6⟩] (by decide)
    ⟨20240102, 6⟩ (by decide)

/-- C8: the claim that every scheduler error reaches the HTTP boundary as
a distinguishable 5xx response fails on the code: on a missing library,
select_daily_puzzle returns the tuple holding the error dict and 500, the
membership test of the endpoint compares the string "error" against the
two tuple elements and yields False, so get_daily_puzzle answers with
status 200 and the serialized tuple as a JSON array body: a success
response with the error hidden inside. -/
theorem C8_error_swallowed_to_200 :
    get_daily_puzzle 20240101 0 none [] false =
      .ok ⟨200, .tupleJson libraryErrorMsg⟩ := by decide

/-- C9 counterexample: with a one-record library, an empty history and a
failing save, select_daily_puzzle does not return any value, neither an
error marker nor the selected puzzle: the OSError raised by save_json
propagates unhandled.  This contradicts the claim that the failure is
propagated as a distinguishable error value while the in-memory result
may still be returned. -/
theorem C9_counterexample :
    select_daily_puzzle 20240101 0 (some [⟨1, 0⟩]) [] true =
      .error .saveIOError := by decide

/-- C9 as amended: whenever select_daily_puzzle reaches a save (today is
fresh in a non-empty library, so either the reset write or the append
write runs) and the save fails, the exception escapes the function
unhandled; no value is returned to the caller. -/
theorem C9_amended_save_raises (today_id rand : Nat)
    (lib : List PuzzleRecord) (history : List AssignmentEntry)
    (hlib : lib ≠ [])
    (hfind : history.find? (fun e => e.date == today_id) = none) :
    select_daily_puzzle today_id rand (some lib) history true =
      .error .saveIOError :=
  select_save_failure today_id rand lib history hlib hfind

/-- Witness for the amended C9: the failing write is the reset write. -/
theorem C9_witness :
    select_daily_puzzle 20240105 3 (some [⟨7, 1⟩]) [⟨20240104, 7⟩] true =
      .error .saveIOError :=
  C9_amended_save_raises 20240105 3 [⟨7, 1⟩] [⟨20240104, 7⟩]
    (by decide) (by decide)

/-- C10: when the history entry of today stores an id absent from the
library, select_daily_puzzle returns the Python value None, and
get_daily_puzzle then evaluates the membership test on None and raises
TypeError instead of producing any HTTP response: the endpoint is not
total on this reachable input. -/
theorem C10_endpoint_type_error (today_id rand : Nat)
    (lib : List PuzzleRecord) (history : List AssignmentEntry) (sf : Bool)
    (e : AssignmentEntry)
    (hlib : lib ≠ [])
    (hfind : history.find? (fun x => x.date == today_id) = some e)
    (hnone : lib.find? (fun p => p.id == e.puzzle_id) = none) :
    select_daily_puzzle today_id rand (some lib) history sf =
      .ok (.pyNone, history) ∧
    get_daily_puzzle today_id rand (some lib) history sf =
      .error .typeError := by
  have h := select_found today_id rand lib history sf e hlib hfind
  rw [hnone] at h
  refine ⟨h, ?_⟩
  simp only [get_daily_puzzle, h]
  rfl

/-- Witness for C10 at a concrete dangling history entry. -/
theorem C10_witness :
    select_daily_puzzle 20240110 1 (some [⟨3, 0⟩]) [⟨20240110, 4⟩] false =
      .ok (.pyNone, [⟨20240110, 4⟩]) ∧
    get_daily_puzzle 20240110 1 (some [⟨3, 0⟩]) [⟨20240110, 4⟩] false =
      .error .typeError :=
  C10_endpoint_type_error 20240110 1 [⟨3, 0⟩] [⟨20240110, 4⟩] false
    ⟨20240110, 4⟩ (by decide) (by decide) (by decide)

/-- Invariant of iterated fresh selections: starting from a history whose
recorded ids are distinct, all drawn from a duplicate-free library, with
all the requested dates fresh and distinct and enough unused records
left, each day appends exactly one entry with a still-unused library id.
-/
lemma runSelections_spec (lib : List PuzzleRecord)
    (hids : (lib.map (fun p => p.id)).Nodup) :
    ∀ (days : List (Nat × Nat)) (history : List AssignmentEntry),
      (days.map Prod.fst).Nodup →
      (∀ d ∈ days.map Prod.fst, ∀ e ∈ history, e.date ≠ d) →
      (used_ids history).Nodup →
      (∀ e ∈ history, e.puzzle_id ∈ lib.map (fun p => p.id)) →
      history.length + days.length ≤ lib.length →
      (runSelections lib days history).length =
        history.length + days.length ∧
      (used_ids (runSelections lib days history)).Nodup ∧
      (∀ e ∈ runSelections lib days history,
        e.puzzle_id ∈ lib.map (fun p => p.id)) := by
  intro days
  induction days with
  | nil =>
    intro history _ _ h3 h4 _
    exact ⟨by simp [runSelections], by simpa [runSelections] using h3,
      by simpa [runSelections] using h4⟩
  | cons dr rest ih =>
    obtain ⟨d, r⟩ := dr
    intro history hdn hfresh hnodup hsub hlen
    have hfind : history.find? (fun e => e.date == d) = none := by
      apply List.find?_eq_none.mpr
      intro e he
      simpa using hfresh d (by simp) e he
    have hlt : history.length < lib.length := by
      simp only [List.length_cons] at hlen
      omega
    have hpool : ∃ p, p ∈ lib ∧ p.id ∉ used_ids history := by
      by_contra hno
      push_neg at hno
      have hsubset : lib.map (fun p => p.id) ⊆ used_ids history := by
        intro x hx
        obtain ⟨p, hp, rfl⟩ := List.mem_map.mp hx
        exact hno p hp
      have hle := (List.subperm_of_subset hids hsubset).length_le
      simp [used_ids] at hle
      omega
    obtain ⟨sel, hsel, hselu, heq⟩ := select_fresh d r lib history hfind hpool
    have hrun : runSelections lib ((d, r) :: rest) history =
        runSelections lib rest (history ++ [⟨d, sel.id⟩]) := by
      simp [runSelections, heq]
    obtain ⟨hd_rest, hdn2⟩ :
        d ∉ rest.map Prod.fst ∧ (rest.map Prod.fst).Nodup := by
      simpa [List.nodup_cons] using hdn
    obtain ⟨ihlen, ihnodup, ihsub⟩ := ih (history ++ [⟨d, sel.id⟩]) hdn2
      (by
        intro d2 hd2 e he
        rcases List.mem_append.mp he with he | he
        · exact hfresh d2 (by simp [hd2]) e he
        · simp only [List.mem_singleton] at he
          subst he
          intro hde
          simp only at hde
          subst hde
          exact hd_rest hd2)
      (by
        simp only [used_ids, List.map_append]
        exact List.Nodup.append hnodup (by simp)
          (by simpa [used_ids] using hselu))
      (by
        intro e he
        rcases List.mem_append.mp he with he | he
        · exact hsub e he
        · simp only [List.mem_singleton] at he
          subst he
          exact List.mem_map.mpr ⟨sel, hsel, rfl⟩)
      (by
        simp only [List.length_append, List.length_cons,
          List.length_singleton, List.length_nil] at hlen ⊢
        omega)
    refine ⟨?_, by rwa [hrun], by rwa [hrun]⟩
    rw [hrun, ihlen]
    simp only [List.length_append, List.length_cons, List.length_singleton,
      List.length_nil]
    omega

/-- C2: No repeat until exhaustion.  For a library of size N with
pairwise distinct ids, starting from the empty history, one fresh
selection on each of N distinct dates records N pairwise distinct ids
that form a permutation of the library ids: the library is covered
exactly once, and no freshly selected id repeats an already recorded
one. -/
theorem C2_no_repeat_until_exhaustion (lib : List PuzzleRecord)
    (days : List (Nat × Nat))
    (hids : (lib.map (fun p => p.id)).Nodup)
    (hdates : (days.map Prod.fst).Nodup)
    (hlen : days.length = lib.length) :
    (used_ids (runSelections lib days [])).Perm
      (lib.map (fun p => p.id)) ∧
    (used_ids (runSelections lib days [])).Nodup := by
  obtain ⟨hL, hN, hS⟩ := runSelections_spec lib hids days []
    hdates (by simp) (by simp [used_ids]) (by simp) (by simp [hlen])
  refine ⟨?_, hN⟩
  have hsub : used_ids (runSelections lib days []) ⊆
      lib.map (fun p => p.id) := by
    intro x hx
    obtain ⟨e, he, rfl⟩ := List.mem_map.mp hx
    exact hS e he
  refine (List.subperm_of_subset hN hsub).perm_of_length_le ?_
  simp only [List.length_nil, Nat.zero_add] at hL
  simp [used_ids, hL, hlen]

/-- Witness for C2: three dates cover a three-record library exactly
once. -/
theorem C2_witness :
    (used_ids (runSelections [⟨1, 0⟩, ⟨2, 0⟩, ⟨3, 0⟩]
        [(10, 0), (11, 0), (12, 0)] [])).Perm
      (([⟨1, 0⟩, ⟨2, 0⟩, ⟨3, 0⟩] : List PuzzleRecord).map
        (fun p => p.id)) ∧
    (used_ids (runSelections [⟨1, 0⟩, ⟨2, 0⟩, ⟨3, 0⟩]
        [(10, 0), (11, 0), (12, 0)] [])).Nodup :=
  C2_no_repeat_until_exhaustion [⟨1, 0⟩, ⟨2, 0⟩, ⟨3, 0⟩]
    [(10, 0), (11, 0), (12, 0)] (by decide) (by decide) (by decide)

end PocketPair
